import Mathlib

/-!
Verification of the dendrite room-server core against its design spec.

The definitions below are a shallow embedding of the Go sources:
  * `eventauth.go` (gomatrixserverlib) — the event authorization engine;
  * `roomserver/input/event.go` — the input handler's room / state preparation;
  * the state-snapshot storage statements (`bulkSelectStateBlockNIDs`).

Go errors are embedded as an explicit result type: `NotAllowed` errors,
other returned errors (such as malformed-ID errors), and panics are kept
distinct.  Go maps are embedded as association lists; Go's database rows
are embedded as lists of records.
-/

namespace Dendrite

/-- Result of an authorization check.  `allowed` stands for a `nil` error,
`notAllowed` for a `NotAllowed` error, `errOther` for any other returned
error (for example a malformed-ID error), and `fatal` for a panic. -/
inductive AuthResult where
  | allowed : AuthResult
  | notAllowed (msg : String) : AuthResult
  | errOther (msg : String) : AuthResult
  | fatal (msg : String) : AuthResult
deriving DecidableEq, Repr

/-- Reference to a previous event, from the `prev_events` list. -/
structure EventRef where
  eventID : String
deriving DecidableEq, Repr

/-- The typed view of an event used by the auth engine: type, room id,
sender, optional state key, prev-event references and redaction target. -/
structure Event where
  eventType : String
  roomID : String
  sender : String
  stateKey : Option String
  prevEvents : List EventRef
  redacts : String
deriving DecidableEq, Repr

/-- The Go method `Event.StateKeyEquals`: the state key is present and
equals the given string. -/
abbrev Event.stateKeyEquals (e : Event) (s : String) : Prop :=
  e.stateKey = some s

/-- Helper used to embed `domainFromID`: everything after the first colon
of the character list, or `none` when there is no colon. -/
def domainAfterColon : List Char → Option (List Char)
  | [] => none
  | c :: rest => if c = ':' then some rest else domainAfterColon rest

/-- Modelled from the spec: `domainFromID(id)` splits an id of the form
`<sigil><localpart>:<domain>` into its domain, failing with `InvalidID`
otherwise (the Go helper lives in gomatrixserverlib outside this
repository snapshot).  The domain is everything after the first colon. -/
def domainFromID (id : String) : Option String :=
  (domainAfterColon id.toList).map fun cs => String.mk cs

/-- Modelled from the spec: the parsed `m.room.member` content — the
`membership` string and the raw `third_party_invite` data, with the empty
string standing for an absent `third_party_invite`. -/
structure MemberContent where
  membership : String
  thirdPartyInvite : String
deriving DecidableEq, Repr

/-- Modelled from the spec: the parsed `m.room.join_rules` content. -/
structure JoinRuleContent where
  joinRule : String
deriving DecidableEq, Repr

/-- Modelled from the spec: the parsed `m.room.create` content together
with the room id and event id of the create event.  `federate` is the
`m.federate` flag (`true` when absent) and `creatorDomain` is the domain
of the room creator. -/
structure CreateContent where
  roomID : String
  eventID : String
  creator : String
  federate : Bool
  creatorDomain : String
deriving DecidableEq, Repr

/-- Modelled from the spec: a domain is permitted by the `m.federate`
flag; when `m.federate` is `false` only the room creator's domain is
permitted. -/
def CreateContent.domainAllowed (c : CreateContent) (domain : String) : AuthResult :=
  if c.federate then .allowed
  else if domain = c.creatorDomain then .allowed
  else .notAllowed ("room is unfederatable")

/-- Sequencing of Go's early-return error propagation: when the first
check returns a non-`nil` error that error is returned, otherwise the
continuation runs. -/
def andThen (r : AuthResult) (k : Unit → AuthResult) : AuthResult :=
  match r with
  | .allowed => k ()
  | r => r

/-- Sequencing of a `domainFromID` call: a malformed id returns the
`InvalidID` error, otherwise the continuation receives the domain. -/
def withDomain (id : String) (k : String → AuthResult) : AuthResult :=
  match domainFromID id with
  | none => .errOther ("invalid ID")
  | some d => k d

/-- Modelled from the spec: a user id is permitted when its domain is
permitted by the `m.federate` flag; a malformed id is an `InvalidID`
error rather than a `NotAllowed`. -/
def CreateContent.userIDAllowed (c : CreateContent) (id : String) : AuthResult :=
  withDomain id fun d => c.domainAllowed d

/-- Lookup in an association list with string keys, embedding a Go map
access. -/
def lookupLevel : List (String × Int) → String → Option Int
  | [], _ => none
  | (k, v) :: rest, key => if k = key then some v else lookupLevel rest key

/-- Modelled from the spec: the parsed `m.room.power_levels` content —
the named levels plus the per-user and per-event level maps, embedded as
association lists. -/
structure PowerLevelContent where
  banLevel : Int
  inviteLevel : Int
  kickLevel : Int
  redactLevel : Int
  stateDefaultLevel : Int
  eventDefaultLevel : Int
  userDefaultLevel : Int
  userLevels : List (String × Int)
  eventLevels : List (String × Int)
deriving DecidableEq, Repr

/-- Modelled from the spec: the level of a user is the per-user entry if
present, else the user default level. -/
def PowerLevelContent.userLevel (c : PowerLevelContent) (userID : String) : Int :=
  match lookupLevel c.userLevels userID with
  | some l => l
  | none => c.userDefaultLevel

/-- Modelled from the spec: the level needed to send an event is the
per-type entry if present, else the state default level for state events
and the event default level otherwise. -/
def PowerLevelContent.eventLevel (c : PowerLevelContent) (eventType : String)
    (isState : Bool) : Int :=
  match lookupLevel c.eventLevels eventType with
  | some l => l
  | none => if isState then c.stateDefaultLevel else c.eventDefaultLevel

/-- Embeds `createEventAllowed` from `eventauth.go`: the state key must be
`""`, the sender's domain must equal the room id's domain, and
`prev_events` must be empty.  No auth events are consulted. -/
def createEventAllowed (e : Event) : AuthResult :=
  if ¬ e.stateKeyEquals "" then
    .notAllowed ("create event state key is not empty")
  else
    withDomain e.roomID fun roomIDDomain =>
      withDomain e.sender fun senderDomain =>
        if senderDomain ≠ roomIDDomain then
          .notAllowed ("create event room ID domain does not match sender")
        else if e.prevEvents.length > 0 then
          .notAllowed ("create event must be the first event in the room")
        else .allowed

/-- Embeds the `eventAllower` struct from `eventauth.go`: the contents of
the create event, of the sender's member event and of the power-levels
event, loaded from the auth events. -/
structure EventAllower where
  create : CreateContent
  member : MemberContent
  powerLevels : PowerLevelContent
deriving DecidableEq, Repr

/-- Embeds the check that a state key beginning with `'@'` is present:
`len(*stateKey) > 0 && (*stateKey)[0] == '@'`. -/
def startsWithAtSign (sk : String) : Bool :=
  match sk.toList with
  | [] => false
  | c :: _ => c = '@'

/-- Embeds the final check of `eventAllower.commonChecks`: a present
state key beginning with `'@'` must equal the sender. -/
def stateKeyCheck (sender : String) : Option String → AuthResult
  | some sk =>
    if startsWithAtSign sk then
      if sk = sender then .allowed
      else .notAllowed ("sender is not allowed to modify the state belonging to another user")
    else .allowed
  | none => .allowed

/-- Embeds `eventAllower.commonChecks` from `eventauth.go`: room id must
match the create event, the sender must be permitted by `m.federate`, the
sender must be joined, the sender's level must reach the event's level,
and a state key beginning with `'@'` must equal the sender. -/
def commonChecks (a : EventAllower) (e : Event) : AuthResult :=
  if e.roomID ≠ a.create.roomID then
    .notAllowed ("create event has different roomID")
  else
    andThen (a.create.userIDAllowed e.sender) fun _ =>
      if a.member.membership ≠ "join" then
        .notAllowed ("sender not in room")
      else if a.powerLevels.userLevel e.sender <
          a.powerLevels.eventLevel e.eventType e.stateKey.isSome then
        .notAllowed ("sender is not allowed to send event")
      else stateKeyCheck e.sender e.stateKey

/-- Embeds `redactEventAllowed` from `eventauth.go`: after the common
checks, a sender whose domain equals the redacted event's domain is always
allowed; otherwise the sender's level must reach the redact level. -/
def redactEventAllowed (a : EventAllower) (e : Event) : AuthResult :=
  andThen (commonChecks a e) fun _ =>
    withDomain e.sender fun senderDomain =>
      withDomain e.redacts fun redactDomain =>
        if senderDomain = redactDomain then .allowed
        else if a.powerLevels.userLevel e.sender ≥ a.powerLevels.redactLevel then .allowed
        else .notAllowed ("sender is not allowed to redact message")

/-- Level pair compared by `checkEventLevels`. -/
structure LevelPair where
  old : Int
  new : Int
deriving DecidableEq, Repr

/-- Embeds the `levelChecks` list built by `checkEventLevels`: the six
named levels, then the per-event keys of the new levels, then the
per-event keys of the old levels, all looked up with the non-state
default. -/
def eventLevelChecks (oldPL newPL : PowerLevelContent) : List LevelPair :=
  [⟨oldPL.banLevel, newPL.banLevel⟩,
   ⟨oldPL.inviteLevel, newPL.inviteLevel⟩,
   ⟨oldPL.kickLevel, newPL.kickLevel⟩,
   ⟨oldPL.redactLevel, newPL.redactLevel⟩,
   ⟨oldPL.stateDefaultLevel, newPL.stateDefaultLevel⟩,
   ⟨oldPL.eventDefaultLevel, newPL.eventDefaultLevel⟩]
  ++ (newPL.eventLevels.map fun p => ⟨oldPL.eventLevel p.1 false, newPL.eventLevel p.1 false⟩)
  ++ (oldPL.eventLevels.map fun p => ⟨oldPL.eventLevel p.1 false, newPL.eventLevel p.1 false⟩)

/-- Embeds the check loop of `checkEventLevels`: skip unchanged pairs,
deny when the new level is above the sender's, deny when the old level is
above the sender's. -/
def checkLevelPairs (senderLevel : Int) : List LevelPair → AuthResult
  | [] => .allowed
  | p :: rest =>
    if p.old = p.new then checkLevelPairs senderLevel rest
    else if senderLevel < p.new then
      .notAllowed ("the new level is above the level of the sender")
    else if senderLevel < p.old then
      .notAllowed ("the current level is above the level of the sender")
    else checkLevelPairs senderLevel rest

/-- Embeds `checkEventLevels` from `eventauth.go`. -/
def checkEventLevels (senderLevel : Int) (oldPL newPL : PowerLevelContent) : AuthResult :=
  checkLevelPairs senderLevel (eventLevelChecks oldPL newPL)

/-- Level pair compared by `checkUserLevels`, tagged with the user id it
belongs to; the user-default pair carries the empty string. -/
structure UserLevelPair where
  old : Int
  new : Int
  userID : String
deriving DecidableEq, Repr

/-- Embeds the `userLevelChecks` list built by `checkUserLevels`: first
the user default level with userID `""`, then the per-user keys of the new
levels, then the per-user keys of the old levels. -/
def userLevelChecks (oldPL newPL : PowerLevelContent) : List UserLevelPair :=
  ⟨oldPL.userDefaultLevel, newPL.userDefaultLevel, ""⟩ ::
  ((newPL.userLevels.map fun p => ⟨oldPL.userLevel p.1, newPL.userLevel p.1, p.1⟩)
   ++ (oldPL.userLevels.map fun p => ⟨oldPL.userLevel p.1, newPL.userLevel p.1, p.1⟩))

/-- Embeds the check loop of `checkUserLevels`: skip unchanged pairs, deny
when the new level is above the sender's, allow a sender changing their
own level, and otherwise deny when the old level is at or above the
sender's. -/
def checkUserLevelPairs (senderLevel : Int) (senderID : String) :
    List UserLevelPair → AuthResult
  | [] => .allowed
  | p :: rest =>
    if p.old = p.new then checkUserLevelPairs senderLevel senderID rest
    else if senderLevel < p.new then
      .notAllowed ("the new level is above the level of the sender")
    else if p.userID = senderID then checkUserLevelPairs senderLevel senderID rest
    else if senderLevel ≤ p.old then
      .notAllowed ("the old level is equal to or above the level of the sender")
    else checkUserLevelPairs senderLevel senderID rest

/-- Embeds `checkUserLevels` from `eventauth.go`. -/
def checkUserLevels (senderLevel : Int) (senderID : String)
    (oldPL newPL : PowerLevelContent) : AuthResult :=
  checkUserLevelPairs senderLevel senderID (userLevelChecks oldPL newPL)

/-- Embeds the `membershipAllower` struct from `eventauth.go`. -/
structure MembershipAllower where
  targetID : String
  senderID : String
  senderMember : MemberContent
  oldMember : MemberContent
  newMember : MemberContent
  create : CreateContent
  powerLevels : PowerLevelContent
  joinRule : JoinRuleContent
deriving DecidableEq, Repr

/-- Embeds `membershipAllower.membershipFailed`. -/
def membershipFailed (m : MembershipAllower) : AuthResult :=
  if m.senderID = m.targetID then
    .notAllowed ("not allowed to change own membership")
  else
    .notAllowed ("not allowed to change the membership of another user")

/-- Embeds `membershipAllower.membershipAllowedSelf` from `eventauth.go`. -/
def membershipAllowedSelf (m : MembershipAllower) : AuthResult :=
  if m.newMember.membership = "join" then
    if m.oldMember.membership = "leave" ∧ m.joinRule.joinRule = "public" then .allowed
    else if m.oldMember.membership = "invite" ∧ m.joinRule.joinRule = "public" then .allowed
    else if m.oldMember.membership = "invite" ∧ m.joinRule.joinRule = "invite" then .allowed
    else if m.oldMember.membership = "join" then .allowed
    else membershipFailed m
  else if m.newMember.membership = "leave" then
    if m.oldMember.membership = "join" then .allowed
    else if m.oldMember.membership = "invite" then .allowed
    else membershipFailed m
  else membershipFailed m

/-- Embeds `membershipAllower.membershipAllowedOther` from `eventauth.go`. -/
def membershipAllowedOther (m : MembershipAllower) : AuthResult :=
  if m.senderMember.membership ≠ "join" then
    .notAllowed ("sender is not in the room")
  else if m.newMember.membership = "ban" ∧
      m.powerLevels.userLevel m.senderID ≥ m.powerLevels.banLevel ∧
      m.powerLevels.userLevel m.senderID > m.powerLevels.userLevel m.targetID then .allowed
  else if m.newMember.membership = "leave" ∧ m.oldMember.membership = "ban" ∧
      m.powerLevels.userLevel m.senderID ≥ m.powerLevels.banLevel then .allowed
  else if m.newMember.membership = "leave" ∧ m.oldMember.membership ≠ "ban" ∧
      m.powerLevels.userLevel m.senderID ≥ m.powerLevels.kickLevel ∧
      m.powerLevels.userLevel m.senderID > m.powerLevels.userLevel m.targetID then .allowed
  else if m.newMember.membership = "invite" ∧ m.oldMember.membership = "leave" ∧
      m.powerLevels.userLevel m.senderID ≥ m.powerLevels.inviteLevel then .allowed
  else if m.newMember.membership = "invite" ∧ m.oldMember.membership = "invite" ∧
      m.powerLevels.userLevel m.senderID ≥ m.powerLevels.inviteLevel then .allowed
  else membershipFailed m

/-- Embeds `membershipAllower.membershipAllowed` from `eventauth.go`: room
id and `m.federate` checks, then the creator-bootstrap special case, then
the third-party-invite panic, then the self / other dispatch. -/
def membershipAllowed (m : MembershipAllower) (e : Event) : AuthResult :=
  if m.create.roomID ≠ e.roomID then
    .notAllowed ("create event has different roomID")
  else
    andThen (m.create.userIDAllowed m.senderID) fun _ =>
      andThen (m.create.userIDAllowed m.targetID) fun _ =>
        if m.targetID = m.create.creator ∧ m.newMember.membership = "join" ∧
            m.senderID = m.targetID ∧ e.prevEvents.length = 1 ∧
            (e.prevEvents.map EventRef.eventID) = [m.create.eventID] then
          .allowed
        else if m.newMember.membership = "invite" ∧ m.newMember.thirdPartyInvite ≠ "" then
          .fatal ("ThirdPartyInvite not implemented")
        else if m.targetID = m.senderID then membershipAllowedSelf m
        else membershipAllowedOther m

/-- Embeds `api.KindOutlier` from `roomserver/api/input.go`. -/
def KindOutlier : Int := 1

/-- Embeds `api.KindJoin` from `roomserver/api/input.go`. -/
def KindJoin : Int := 2

/-- Embeds `api.KindNew` from `roomserver/api/input.go`. -/
def KindNew : Int := 3

/-- Embeds `api.KindBackfill` from `roomserver/api/input.go`. -/
def KindBackfill : Int := 4

/-- Embeds the room registry part of `InputEventHandlerDatabase`: the
known rooms as an association list from room id to room nid, and the
monotonic room-nid sequence.  Numeric room IDs start at 1, so 0 never
names a room. -/
structure RoomDB where
  rooms : List (String × Int)
  nextRoom : Int
deriving DecidableEq, Repr

/-- Lookup in the room registry, embedding `db.RoomNID`: returns 0 when
the room id has no numeric ID. -/
def RoomDB.roomNID (db : RoomDB) (roomID : String) : Int :=
  match lookupLevel db.rooms roomID with
  | some nid => nid
  | none => 0

/-- Embeds `InputEventHandler.prepareRoom` from
`roomserver/input/event.go`, sequentially (the room-creation lock only
serializes concurrent callers; under the lock the room is looked up
again, which in this interleaving-free embedding returns the same
answer).  Returns the result together with the database state after the
call. -/
def prepareRoom (db : RoomDB) (kind : Int) (roomID : String) :
    Except String Int × RoomDB :=
  if db.roomNID roomID ≠ 0 then (.ok (db.roomNID roomID), db)
  else if kind ≠ KindOutlier then
    (.error ("The first events added to a room must be outliers"), db)
  else if db.roomNID roomID ≠ 0 then (.ok (db.roomNID roomID), db)
  else
    (.ok db.nextRoom,
     { rooms := (roomID, db.nextRoom) :: db.rooms, nextRoom := db.nextRoom + 1 })

/-- Embeds `types.StateBlockNIDList`: the state-block nid list of one
state snapshot, as returned by the bulk lookup. -/
structure StateBlockNIDList where
  stateSnapshotNID : Int
  stateBlockNIDs : List Int
deriving DecidableEq, Repr

/-- Row of the `state_snapshots` table: primary-key snapshot nid, room
nid, and the list of state-block nids. -/
structure SnapshotRow where
  stateSnapshotNID : Int
  roomNID : Int
  stateBlockNIDs : List Int
deriving DecidableEq, Repr

/-- Order on result rows by snapshot nid: the `ORDER BY
state_snapshot_nid ASC` of `bulkSelectStateBlockNIDsSQL`. -/
def rowLE (a b : StateBlockNIDList) : Prop :=
  a.stateSnapshotNID ≤ b.stateSnapshotNID

instance : DecidableRel rowLE := fun a b =>
  inferInstanceAs (Decidable (a.stateSnapshotNID ≤ b.stateSnapshotNID))

instance : IsTotal StateBlockNIDList rowLE :=
  ⟨fun a b => Int.le_total a.stateSnapshotNID b.stateSnapshotNID⟩

instance : IsTrans StateBlockNIDList rowLE :=
  ⟨fun _ _ _ h h' => le_trans h h'⟩

/-- Rows produced by executing `bulkSelectStateBlockNIDsSQL` against a
`state_snapshots` table: the rows whose snapshot nid is in the requested
list, projected to `(state_snapshot_nid, state_block_nids)` and ordered
ascending by snapshot nid. -/
def selectSnapshotRows (table : List SnapshotRow) (stateNIDs : List Int) :
    List StateBlockNIDList :=
  List.insertionSort rowLE
    ((table.filter fun r => r.stateSnapshotNID ∈ stateNIDs).map
      fun r => StateBlockNIDList.mk r.stateSnapshotNID r.stateBlockNIDs)

/-- Embeds `stateSnapshotStatements.bulkSelectStateBlockNIDs`: the scan
loop collects the query rows, and the call fails when the number of rows
differs from the number of requested nids. -/
def bulkSelectStateBlockNIDs (table : List SnapshotRow) (stateNIDs : List Int) :
    Except String (List StateBlockNIDList) :=
  if (selectSnapshotRows table stateNIDs).length = stateNIDs.length then
    .ok (selectSnapshotRows table stateNIDs)
  else .error ("storage: state NIDs missing from the database")

/-- Embeds `input.StateEntry`. -/
structure StateEntry where
  eventTypeNID : Int
  eventStateKeyNID : Int
  eventNID : Int
deriving DecidableEq, Repr

/-- Embeds `input.StateAtEvent`: the state before an event and the state
entry for the event itself. -/
structure StateAtEvent where
  beforeStateID : Int
  eventStateEntry : StateEntry
deriving DecidableEq, Repr

/-- Lookup of the persisted state at one event id. -/
def lookupState : List (String × StateAtEvent) → String → Option StateAtEvent
  | [], _ => none
  | (k, v) :: rest, id => if k = id then some v else lookupState rest id

/-- Embeds the `db.StateAtEvents` contract declared in
`roomserver/input/event.go`: the database returns the state for each
requested event id it knows, and the returned list is smaller than the
request when some events are missing. -/
def stateAtEventsDB (db : List (String × StateAtEvent)) (ids : List String) :
    List StateAtEvent :=
  ids.filterMap (lookupState db)

/-- Lexicographic comparison of char lists, embedding the ordering used
by Go's `sort.Strings`; structurally computable. -/
def listCharLEb : List Char → List Char → Bool
  | [], _ => true
  | _ :: _, [] => false
  | c :: cs, d :: ds =>
    if c < d then true
    else if d < c then false
    else listCharLEb cs ds

/-- Order on strings used to embed `sort.Strings`. -/
def strLE (a b : String) : Prop := listCharLEb a.toList b.toList = true

instance : DecidableRel strLE := fun a b =>
  inferInstanceAs (Decidable (listCharLEb a.toList b.toList = true))

instance : IsTotal String strLE := by
  constructor
  have key : ∀ xs ys : List Char, listCharLEb xs ys = true ∨ listCharLEb ys xs = true := by
    intro xs
    induction xs with
    | nil => intro ys; left; rfl
    | cons c cs ih =>
      intro ys
      cases ys with
      | nil => right; rfl
      | cons d ds =>
        simp only [listCharLEb]
        rcases lt_trichotomy c d with hcd | hcd | hcd
        · left; rw [if_pos hcd]
        · subst hcd
          rw [if_neg (lt_irrefl c), if_neg (lt_irrefl c), if_neg (lt_irrefl c),
            if_neg (lt_irrefl c)]
          exact ih ds
        · right; rw [if_pos hcd]
  intro a b
  exact key a.toList b.toList

instance : IsTrans String strLE := by
  constructor
  have key : ∀ xs ys zs : List Char, listCharLEb xs ys = true →
      listCharLEb ys zs = true → listCharLEb xs zs = true := by
    intro xs
    induction xs with
    | nil => intro ys zs _ _; rfl
    | cons c cs ih =>
      intro ys zs h1 h2
      cases ys with
      | nil => exact absurd h1 (by simp [listCharLEb])
      | cons d ds =>
        cases zs with
        | nil => exact absurd h2 (by simp [listCharLEb])
        | cons e es =>
          simp only [listCharLEb] at h1 h2 ⊢
          rcases lt_trichotomy c d with hcd | hcd | hcd
          · rcases lt_trichotomy d e with hde | hde | hde
            · rw [if_pos (lt_trans hcd hde)]
            · subst hde; rw [if_pos hcd]
            · rw [if_neg (lt_asymm hde), if_pos hde] at h2
              exact absurd h2 (by simp)
          · subst hcd
            rw [if_neg (lt_irrefl c), if_neg (lt_irrefl c)] at h1
            rcases lt_trichotomy c e with hce | hce | hce
            · rw [if_pos hce]
            · subst hce
              rw [if_neg (lt_irrefl c), if_neg (lt_irrefl c)] at h2 ⊢
              exact ih ds es h1 h2
            · rw [if_neg (lt_asymm hce), if_pos hce] at h2
              exact absurd h2 (by simp)
          · rw [if_neg (lt_asymm hcd), if_pos hcd] at h1
            exact absurd h1 (by simp)
  intro a b c h1 h2
  exact key a.toList b.toList c.toList h1 h2

instance : IsAntisymm String strLE := by
  constructor
  have key : ∀ xs ys : List Char, listCharLEb xs ys = true →
      listCharLEb ys xs = true → xs = ys := by
    intro xs
    induction xs with
    | nil =>
      intro ys h1 h2
      cases ys with
      | nil => rfl
      | cons d ds => exact absurd h2 (by simp [listCharLEb])
    | cons c cs ih =>
      intro ys h1 h2
      cases ys with
      | nil => exact absurd h1 (by simp [listCharLEb])
      | cons d ds =>
        simp only [listCharLEb] at h1 h2
        rcases lt_trichotomy c d with hcd | hcd | hcd
        · rw [if_neg (lt_asymm hcd), if_pos hcd] at h2
          exact absurd h2 (by simp)
        · subst hcd
          rw [if_neg (lt_irrefl c), if_neg (lt_irrefl c)] at h1 h2
          rw [ih ds h1 h2]
        · rw [if_neg (lt_asymm hcd), if_pos hcd] at h1
          exact absurd h1 (by simp)
  intro a b h1 h2
  exact String.toList_inj.mp (key a.toList b.toList h1 h2)

/-- Loop of the Go `unique` helper: `lastValue` is the current run value;
a differing value emits the run value and starts a new run, and the final
run value is emitted at the end. -/
def uniqueAux (lastValue : String) : List String → List String
  | [] => [lastValue]
  | value :: rest =>
    if value = lastValue then uniqueAux lastValue rest
    else lastValue :: uniqueAux value rest

/-- Embeds `unique` from `roomserver/input/event.go`: removes duplicate
elements from a sorted slice. -/
def unique : List String → List String
  | [] => []
  | x :: xs => uniqueAux x xs

/-- Embeds the no-supplied-state branch of
`InputEventHandler.prepareState`: the `prev_events` ids are sorted, then
deduplicated with `unique`, then their states are looked up; the call
fails when some looked-up state is missing. -/
def prepareStateFromPrevEvents (db : List (String × StateAtEvent))
    (prevEventIDs : List String) : Except String (List StateAtEvent) :=
  if (stateAtEventsDB db (unique (List.insertionSort strLE prevEventIDs))).length
      = (unique (List.insertionSort strLE prevEventIDs)).length then
    .ok (stateAtEventsDB db (unique (List.insertionSort strLE prevEventIDs)))
  else .error ("Missing necessary state at prev_event")

/-! Concrete inputs used by the witness theorems below. -/

/-- Power-levels content with every level zero and empty level maps. -/
def plFlat : PowerLevelContent := ⟨0, 0, 0, 0, 0, 0, 0, [], []⟩

/-- Old power levels for the user-default counterexample: every named
level is 50 and the level maps are empty, so every user has level 50. -/
def plCexOld : PowerLevelContent := ⟨50, 50, 50, 50, 50, 50, 50, [], []⟩

/-- New power levels for the user-default counterexample: identical to
`plCexOld` except that `users_default` drops from 50 to 40. -/
def plCexNew : PowerLevelContent := ⟨50, 50, 50, 50, 50, 50, 40, [], []⟩

/-- A well-formed create event for room `!r:x` sent by `@a:x`. -/
def createWitEvent : Event :=
  ⟨"m.room.create", "!r:x", "@a:x", some (""), [], ""⟩

/-- Create content for room `!r:x` created by `@a:x`, federating. -/
def createWitContent : CreateContent :=
  ⟨"!r:x", "$create:x", "@a:x", true, "x"⟩

/-- Membership allower for the creator-bootstrap witness: the creator
`@a:x` joins their own room while their previous membership is `leave`. -/
def bootstrapAllower : MembershipAllower :=
  ⟨"@a:x", "@a:x", ⟨"leave", ""⟩, ⟨"leave", ""⟩, ⟨"join", ""⟩,
   createWitContent, plFlat, ⟨"invite"⟩⟩

/-- The creator-join event for the bootstrap witness: its only prev event
is the create event. -/
def bootstrapEvent : Event :=
  ⟨"m.room.member", "!r:x", "@a:x", some ("@a:x"), [⟨"$create:x"⟩], ""⟩

/-- Event allower for the redaction witness: the sender is joined and all
levels are zero. -/
def redactWitAllower : EventAllower :=
  ⟨createWitContent, ⟨"join", ""⟩, plFlat⟩

/-- A redaction by `@a:x` of an event from the remote domain `y`. -/
def redactWitEvent : Event :=
  ⟨"m.room.redaction", "!r:x", "@a:x", none, [], "$m:y"⟩

/-- Event allower for the `'@'`-state-key witness: the sender `@a:x` has
level 100, far above every required level. -/
def atKeyAllower : EventAllower :=
  ⟨createWitContent, ⟨"join", ""⟩,
   ⟨0, 0, 0, 0, 0, 0, 0, [("@a:x", 100)], []⟩⟩

/-- A state event whose state key names another user, `@b:x`. -/
def atKeyEvent : Event :=
  ⟨"m.custom.type", "!r:x", "@a:x", some ("@b:x"), [], ""⟩

/-- Membership allower for the third-party-invite witness: `@a:x` invites
`@b:x` with a non-empty `third_party_invite`. -/
def tpiAllower : MembershipAllower :=
  ⟨"@b:x", "@a:x", ⟨"join", ""⟩, ⟨"leave", ""⟩, ⟨"invite", "token"⟩,
   createWitContent, plFlat, ⟨"invite"⟩⟩

/-- The invite event for the third-party-invite witness. -/
def tpiEvent : Event :=
  ⟨"m.room.member", "!r:x", "@a:x", some ("@b:x"), [⟨"$prev:x"⟩], ""⟩

/-- A two-row `state_snapshots` table for the bulk-lookup witness. -/
def snapTable : List SnapshotRow :=
  [⟨1, 10, [100]⟩, ⟨2, 10, [100, 101]⟩]

/-- A one-event persisted-state table for the prepare-state witness. -/
def stateDBWit : List (String × StateAtEvent) :=
  [("$e1:x", ⟨1, ⟨1, 1, 1⟩⟩)]

/-! General lemmas about the embedding, shared by the claim theorems. -/

theorem andThen_allowed (k : Unit → AuthResult) : andThen .allowed k = k () := rfl

theorem andThen_notAllowed (msg : String) (k : Unit → AuthResult) :
    andThen (.notAllowed msg) k = .notAllowed msg := rfl

theorem withDomain_some (id d : String) (k : String → AuthResult)
    (h : domainFromID id = some d) : withDomain id k = k d := by
  unfold withDomain
  rw [h]

theorem userIDAllowed_of_domain (c : CreateContent) (id d : String)
    (h : domainFromID id = some d) :
    c.userIDAllowed id = .allowed ∨ ∃ msg, c.userIDAllowed id = .notAllowed msg := by
  unfold CreateContent.userIDAllowed
  rw [withDomain_some id d _ h]
  unfold CreateContent.domainAllowed
  split_ifs <;> simp

/-- C1: for an `m.room.create` event whose room id and sender both carry
domains, authorization succeeds if and only if the state key is `""`, the
sender's domain equals the room id's domain and `prev_events` is empty;
any violation yields a `NotAllowed`.  `createEventAllowed` takes only the
event, so create authorization consults no auth events. -/
theorem createEventAllowed_characterization (e : Event) (dr ds : String)
    (hr : domainFromID e.roomID = some dr)
    (hs : domainFromID e.sender = some ds) :
    (createEventAllowed e = .allowed ↔
      (e.stateKey = some ("") ∧ ds = dr ∧ e.prevEvents = [])) ∧
    (createEventAllowed e ≠ .allowed → ∃ msg, createEventAllowed e = .notAllowed msg) := by
  unfold createEventAllowed
  rw [withDomain_some e.roomID dr _ hr, withDomain_some e.sender ds _ hs]
  by_cases h1 : e.stateKey = some ("")
  · rw [if_neg (not_not_intro h1)]
    by_cases h2 : ds = dr
    · rw [if_neg (not_not_intro h2)]
      by_cases h3 : e.prevEvents = []
      · rw [if_neg (by simp [h3])]
        exact ⟨iff_of_true rfl ⟨h1, h2, h3⟩, fun hne => absurd rfl hne⟩
      · rw [if_pos (List.length_pos.mpr h3)]
        exact ⟨iff_of_false (by simp) fun hh => h3 hh.2.2, fun _ => ⟨_, rfl⟩⟩
    · rw [if_pos h2]
      exact ⟨iff_of_false (by simp) fun hh => h2 hh.2.1, fun _ => ⟨_, rfl⟩⟩
  · rw [if_pos h1]
    exact ⟨iff_of_false (by simp) fun hh => h1 hh.1, fun _ => ⟨_, rfl⟩⟩

/-- Witness for C1: the concrete create event for `!r:x` sent by `@a:x`
with empty `prev_events` is allowed. -/
theorem createEventAllowed_characterization_witness :
    createEventAllowed createWitEvent = .allowed ∧ createWitEvent.prevEvents = [] :=
  ⟨(createEventAllowed_characterization createWitEvent ("x") ("x") rfl rfl).1.mpr
     ⟨rfl, rfl, rfl⟩, rfl⟩

/-- C2: an `m.room.member` self change (sender equals target, outside the
creator-bootstrap case, which dispatches to `membershipAllowedSelf`) is
authorized exactly for the transitions leave→join under a public join
rule, invite→join under an invite or public join rule, join→join,
join→leave and invite→leave; every other self transition produces a
`NotAllowed`. -/
theorem membershipAllowedSelf_characterization (m : MembershipAllower) :
    (membershipAllowedSelf m = .allowed ↔
      ((m.oldMember.membership = "leave" ∧ m.newMember.membership = "join" ∧
          m.joinRule.joinRule = "public") ∨
       (m.oldMember.membership = "invite" ∧ m.newMember.membership = "join" ∧
          (m.joinRule.joinRule = "invite" ∨ m.joinRule.joinRule = "public")) ∨
       (m.oldMember.membership = "join" ∧ m.newMember.membership = "join") ∨
       (m.oldMember.membership = "join" ∧ m.newMember.membership = "leave") ∨
       (m.oldMember.membership = "invite" ∧ m.newMember.membership = "leave"))) ∧
    (membershipAllowedSelf m ≠ .allowed →
      ∃ msg, membershipAllowedSelf m = .notAllowed msg) := by
  unfold membershipAllowedSelf membershipFailed
  split_ifs <;>
    first
      | exact ⟨iff_of_true rfl (by tauto), fun hne => absurd rfl hne⟩
      | · refine ⟨iff_of_false (by simp) fun hR => ?_, fun _ => ⟨_, rfl⟩⟩
          simp_all <;> tauto

theorem checkLevelPairs_allowed_iff (senderLevel : Int) (l : List LevelPair) :
    checkLevelPairs senderLevel l = .allowed ↔
      ∀ p ∈ l, p.old = p.new ∨ (p.new ≤ senderLevel ∧ p.old ≤ senderLevel) := by
  induction l with
  | nil => simp [checkLevelPairs]
  | cons p rest ih =>
    unfold checkLevelPairs
    by_cases h1 : p.old = p.new
    · rw [if_pos h1, ih]
      simp only [List.forall_mem_cons]
      exact ⟨fun h => ⟨Or.inl h1, h⟩, fun h => h.2⟩
    · rw [if_neg h1]
      by_cases h2 : senderLevel < p.new
      · rw [if_pos h2]
        refine iff_of_false (by simp) fun h => ?_
        rcases (List.forall_mem_cons.mp h).1 with hc | hc
        · exact h1 hc
        · omega
      · rw [if_neg h2]
        by_cases h3 : senderLevel < p.old
        · rw [if_pos h3]
          refine iff_of_false (by simp) fun h => ?_
          rcases (List.forall_mem_cons.mp h).1 with hc | hc
          · exact h1 hc
          · omega
        · rw [if_neg h3, ih]
          simp only [List.forall_mem_cons]
          exact ⟨fun h => ⟨Or.inr ⟨by omega, by omega⟩, h⟩, fun h => h.2⟩

theorem checkLevelPairs_allowed_or_notAllowed (senderLevel : Int) (l : List LevelPair) :
    checkLevelPairs senderLevel l = .allowed ∨
      ∃ msg, checkLevelPairs senderLevel l = .notAllowed msg := by
  induction l with
  | nil => exact Or.inl rfl
  | cons p rest ih =>
    unfold checkLevelPairs
    split_ifs <;> first | exact ih | exact Or.inr ⟨_, rfl⟩

theorem checkUserLevelPairs_allowed_iff (senderLevel : Int) (senderID : String)
    (l : List UserLevelPair) :
    checkUserLevelPairs senderLevel senderID l = .allowed ↔
      ∀ p ∈ l, p.old = p.new ∨
        (p.new ≤ senderLevel ∧ (p.userID = senderID ∨ p.old < senderLevel)) := by
  induction l with
  | nil => simp [checkUserLevelPairs]
  | cons p rest ih =>
    unfold checkUserLevelPairs
    by_cases h1 : p.old = p.new
    · rw [if_pos h1, ih]
      simp only [List.forall_mem_cons]
      exact ⟨fun h => ⟨Or.inl h1, h⟩, fun h => h.2⟩
    · rw [if_neg h1]
      by_cases h2 : senderLevel < p.new
      · rw [if_pos h2]
        refine iff_of_false (by simp) fun h => ?_
        rcases (List.forall_mem_cons.mp h).1 with hc | hc
        · exact h1 hc
        · omega
      · rw [if_neg h2]
        by_cases h3 : p.userID = senderID
        · rw [if_pos h3, ih]
          simp only [List.forall_mem_cons]
          exact ⟨fun h => ⟨Or.inr ⟨by omega, Or.inl h3⟩, h⟩, fun h => h.2⟩
        · rw [if_neg h3]
          by_cases h4 : senderLevel ≤ p.old
          · rw [if_pos h4]
            refine iff_of_false (by simp) fun h => ?_
            rcases (List.forall_mem_cons.mp h).1 with hc | ⟨-, hc | hc⟩
            · exact h1 hc
            · exact h3 hc
            · omega
          · rw [if_neg h4, ih]
            simp only [List.forall_mem_cons]
            exact ⟨fun h => ⟨Or.inr ⟨by omega, Or.inr (by omega)⟩, h⟩, fun h => h.2⟩

theorem checkUserLevelPairs_allowed_or_notAllowed (senderLevel : Int) (senderID : String)
    (l : List UserLevelPair) :
    checkUserLevelPairs senderLevel senderID l = .allowed ∨
      ∃ msg, checkUserLevelPairs senderLevel senderID l = .notAllowed msg := by
  induction l with
  | nil => exact Or.inl rfl
  | cons p rest ih =>
    unfold checkUserLevelPairs
    split_ifs <;> first | exact ih | exact Or.inr ⟨_, rfl⟩

/-- Counterexample for C3: with a prior power-levels event whose levels
are all 50 and a new event identical except that `users_default` drops to
40, a sender at level 50 passes every event-level check, and the
user-default pair is unchanged under neither of the claim's two rules
(`sender_level < new` and `sender_level < old` are both false), yet the
code denies the event: the user-default pair is checked as a per-user
pair with userID `""`, which differs from the sender, so the additional
`sender_level ≤ old` rule fires. -/
theorem checkUserLevels_userDefault_cex :
    checkEventLevels 50 plCexOld plCexNew = .allowed ∧
    checkUserLevels 50 ("@a:x") plCexOld plCexNew =
      .notAllowed ("the old level is equal to or above the level of the sender") ∧
    plCexOld.userDefaultLevel ≠ plCexNew.userDefaultLevel ∧
    ¬((50 : Int) < plCexNew.userDefaultLevel) ∧
    ¬((50 : Int) < plCexOld.userDefaultLevel) := by
  refine ⟨by decide, by decide, by decide, by decide, by decide⟩

/-- C3 (amended): each compared event-level pair — the named levels ban,
invite, kick, redact, state_default, event_default and the per-event keys
— is skipped when unchanged, denied when `sender_level < new` and denied
when `sender_level < old`.  The user-default pair and the per-user pairs
are skipped when unchanged and denied when `sender_level < new`; then
pairs whose userID equals the sender are allowed, and all others —
including the user-default pair, whose userID is the empty string — are
additionally denied when `sender_level ≤ old`.  Failures are always
`NotAllowed`. -/
theorem powerLevelChecks_characterization (senderLevel : Int) (senderID : String)
    (oldPL newPL : PowerLevelContent) :
    (checkEventLevels senderLevel oldPL newPL = .allowed ↔
      ∀ p ∈ eventLevelChecks oldPL newPL,
        p.old = p.new ∨ (p.new ≤ senderLevel ∧ p.old ≤ senderLevel)) ∧
    (checkUserLevels senderLevel senderID oldPL newPL = .allowed ↔
      ∀ p ∈ userLevelChecks oldPL newPL,
        p.old = p.new ∨
          (p.new ≤ senderLevel ∧ (p.userID = senderID ∨ p.old < senderLevel))) ∧
    (checkEventLevels senderLevel oldPL newPL = .allowed ∨
      ∃ msg, checkEventLevels senderLevel oldPL newPL = .notAllowed msg) ∧
    (checkUserLevels senderLevel senderID oldPL newPL = .allowed ∨
      ∃ msg, checkUserLevels senderLevel senderID oldPL newPL = .notAllowed msg) :=
  ⟨checkLevelPairs_allowed_iff senderLevel (eventLevelChecks oldPL newPL),
   checkUserLevelPairs_allowed_iff senderLevel senderID (userLevelChecks oldPL newPL),
   checkLevelPairs_allowed_or_notAllowed senderLevel (eventLevelChecks oldPL newPL),
   checkUserLevelPairs_allowed_or_notAllowed senderLevel senderID
     (userLevelChecks oldPL newPL)⟩

/-- C4: an `m.room.member` event whose target, sender and room creator
coincide, whose new membership is `join` and whose only prev event is the
create event is authorized unconditionally — for any old membership of
the target and sender (in particular with no prior join), any power
levels and any join rule — once the room id matches the create event and
the sender and target are permitted by `m.federate`. -/
theorem membershipAllowed_bootstrap (m : MembershipAllower) (e : Event)
    (hroom : m.create.roomID = e.roomID)
    (hsender : m.create.userIDAllowed m.senderID = .allowed)
    (htarget : m.create.userIDAllowed m.targetID = .allowed)
    (hcreator : m.targetID = m.create.creator)
    (hself : m.senderID = m.targetID)
    (hjoin : m.newMember.membership = "join")
    (hprev : e.prevEvents.map EventRef.eventID = [m.create.eventID]) :
    membershipAllowed m e = .allowed := by
  have hlen : e.prevEvents.length = 1 := by
    have h := congrArg List.length hprev
    simpa using h
  unfold membershipAllowed
  rw [if_neg (by simp [hroom]), hsender, andThen_allowed, htarget, andThen_allowed,
    if_pos ⟨hcreator, hjoin, hself, hlen, hprev⟩]

/-- Witness for C4: the creator `@a:x`, whose current membership is
`leave`, joins `!r:x` right after the create event and is allowed. -/
theorem membershipAllowed_bootstrap_witness :
    membershipAllowed bootstrapAllower bootstrapEvent = .allowed ∧
    bootstrapAllower.oldMember.membership = "leave" ∧
    bootstrapAllower.senderMember.membership ≠ "join" :=
  ⟨membershipAllowed_bootstrap bootstrapAllower bootstrapEvent rfl (by decide) (by decide)
     rfl rfl rfl rfl, rfl, by decide⟩

/-- C5: a redaction that passes the common checks is allowed outright
when the sender's domain equals the domain of the event named in
`redacts`, whatever the power levels; across domains it is allowed if and
only if the sender's level reaches the redact level, and otherwise gives
a `NotAllowed`. -/
theorem redactEventAllowed_characterization (a : EventAllower) (e : Event) (ds dd : String)
    (hc : commonChecks a e = .allowed)
    (hs : domainFromID e.sender = some ds)
    (hd : domainFromID e.redacts = some dd) :
    (ds = dd → redactEventAllowed a e = .allowed) ∧
    (ds ≠ dd →
      ((redactEventAllowed a e = .allowed ↔
          a.powerLevels.redactLevel ≤ a.powerLevels.userLevel e.sender) ∧
       (redactEventAllowed a e ≠ .allowed →
          ∃ msg, redactEventAllowed a e = .notAllowed msg))) := by
  unfold redactEventAllowed
  rw [hc, andThen_allowed, withDomain_some e.sender ds _ hs,
    withDomain_some e.redacts dd _ hd]
  constructor
  · intro h
    rw [if_pos h]
  · intro h
    rw [if_neg h]
    by_cases hl : a.powerLevels.userLevel e.sender ≥ a.powerLevels.redactLevel
    · rw [if_pos hl]
      exact ⟨iff_of_true rfl hl, fun hne => absurd rfl hne⟩
    · rw [if_neg hl]
      exact ⟨iff_of_false (by simp) hl, fun _ => ⟨_, rfl⟩⟩

/-- Witness for C5: `@a:x` redacts an event of the remote domain `y`
while holding exactly the redact level, and is allowed; the same-domain
case is also exercised on a same-domain target. -/
theorem redactEventAllowed_characterization_witness :
    commonChecks redactWitAllower redactWitEvent = .allowed ∧
    redactEventAllowed redactWitAllower redactWitEvent = .allowed :=
  ⟨by decide,
   (((redactEventAllowed_characterization redactWitAllower redactWitEvent ("x") ("y")
        (by decide) rfl rfl).2 (by decide)).1).mpr (by decide)⟩

/-- C6: under the common checks, an event whose state key is present,
non-empty and begins with `'@'` is rejected with a `NotAllowed` whenever
the state key differs from the sender — for every power-level content,
including ones where the sender's level is far above the required event
level. -/
theorem commonChecks_atStateKey_denied (a : EventAllower) (e : Event) (sk d : String)
    (hk : e.stateKey = some sk)
    (hne : sk ≠ "")
    (hat : startsWithAtSign sk = true)
    (hd : domainFromID e.sender = some d)
    (hneq : sk ≠ e.sender) :
    ∃ msg, commonChecks a e = .notAllowed msg := by
  unfold commonChecks
  by_cases h1 : e.roomID ≠ a.create.roomID
  · rw [if_pos h1]
    exact ⟨_, rfl⟩
  · rw [if_neg h1]
    rcases userIDAllowed_of_domain a.create e.sender d hd with hu | ⟨msg, hu⟩
    · rw [hu, andThen_allowed]
      by_cases h2 : a.member.membership ≠ "join"
      · rw [if_pos h2]
        exact ⟨_, rfl⟩
      · rw [if_neg h2]
        by_cases h3 : a.powerLevels.userLevel e.sender <
            a.powerLevels.eventLevel e.eventType e.stateKey.isSome
        · rw [if_pos h3]
          exact ⟨_, rfl⟩
        · rw [if_neg h3, hk]
          simp only [stateKeyCheck]
          rw [if_pos hat, if_neg hneq]
          exact ⟨_, rfl⟩
    · rw [hu, andThen_notAllowed]
      exact ⟨msg, rfl⟩

/-- Witness for C6: `@a:x` at level 100 (far above the zero event level)
modifies the state key `@b:x` of another user and is rejected. -/
theorem commonChecks_atStateKey_denied_witness :
    (∃ msg, commonChecks atKeyAllower atKeyEvent = .notAllowed msg) ∧
    atKeyAllower.powerLevels.eventLevel atKeyEvent.eventType true <
      atKeyAllower.powerLevels.userLevel atKeyEvent.sender :=
  ⟨commonChecks_atStateKey_denied atKeyAllower atKeyEvent ("@b:x") ("x") rfl (by decide)
     (by decide) rfl (by decide), by decide⟩

/-- C7: an `m.room.member` event with new membership `invite` carrying a
non-empty `third_party_invite` (which can never satisfy the creator
bootstrap, whose membership is `join`) makes the auth engine panic with
an unrecoverable error — it neither succeeds nor returns an ordinary
`NotAllowed` — once past the room-id and `m.federate` checks. -/
theorem membershipAllowed_thirdPartyInvite_fatal (m : MembershipAllower) (e : Event)
    (hroom : m.create.roomID = e.roomID)
    (hsender : m.create.userIDAllowed m.senderID = .allowed)
    (htarget : m.create.userIDAllowed m.targetID = .allowed)
    (hinv : m.newMember.membership = "invite")
    (htpi : m.newMember.thirdPartyInvite ≠ "") :
    membershipAllowed m e = .fatal ("ThirdPartyInvite not implemented") := by
  have hboot : ¬(m.targetID = m.create.creator ∧ m.newMember.membership = "join" ∧
      m.senderID = m.targetID ∧ e.prevEvents.length = 1 ∧
      (e.prevEvents.map EventRef.eventID) = [m.create.eventID]) := by
    rintro ⟨-, hj, -, -, -⟩
    rw [hinv] at hj
    exact absurd hj (by decide)
  unfold membershipAllowed
  rw [if_neg (by simp [hroom]), hsender, andThen_allowed, htarget, andThen_allowed,
    if_neg hboot, if_pos ⟨hinv, htpi⟩]

/-- Witness for C7: `@a:x` invites `@b:x` with a third-party invite token
and the engine panics. -/
theorem membershipAllowed_thirdPartyInvite_fatal_witness :
    membershipAllowed tpiAllower tpiEvent = .fatal ("ThirdPartyInvite not implemented") ∧
    tpiAllower.newMember.thirdPartyInvite ≠ "" :=
  ⟨membershipAllowed_thirdPartyInvite_fatal tpiAllower tpiEvent rfl (by decide) (by decide)
     rfl (by decide), by decide⟩

/-- C8: preparing the room for an input event returns an existing room
nid unchanged without touching the database; when the room is unknown a
non-Outlier input fails with an error and allocates nothing, while an
Outlier input allocates the next room nid (after the re-check under the
room-creation lock, which in this serialized embedding returns the same
answer) and inserts the room. -/
theorem prepareRoom_characterization (db : RoomDB) (kind : Int) (roomID : String) :
    (db.roomNID roomID ≠ 0 →
       prepareRoom db kind roomID = (.ok (db.roomNID roomID), db)) ∧
    (db.roomNID roomID = 0 → kind ≠ KindOutlier →
       prepareRoom db kind roomID =
         (.error ("The first events added to a room must be outliers"), db)) ∧
    (db.roomNID roomID = 0 → kind = KindOutlier →
       prepareRoom db kind roomID =
         (.ok db.nextRoom,
          { rooms := (roomID, db.nextRoom) :: db.rooms, nextRoom := db.nextRoom + 1 })) := by
  refine ⟨fun h => ?_, fun h hk => ?_, fun h hk => ?_⟩
  · unfold prepareRoom
    rw [if_pos h]
  · unfold prepareRoom
    rw [if_neg (by simp [h]), if_pos hk]
  · unfold prepareRoom
    rw [if_neg (by simp [h]), if_neg (by simp [hk]), if_neg (by simp [h])]

/-- Witness for C8: on an empty registry an Outlier input creates room
nid 1, a New input fails, and an existing room is returned unchanged. -/
theorem prepareRoom_characterization_witness :
    prepareRoom ⟨[], 1⟩ KindOutlier ("!r:x") = (.ok 1, ⟨[("!r:x", 1)], 2⟩) ∧
    prepareRoom ⟨[], 1⟩ KindNew ("!r:x") =
      (.error ("The first events added to a room must be outliers"), ⟨[], 1⟩) ∧
    prepareRoom ⟨[("!r:x", 7)], 8⟩ KindJoin ("!r:x") = (.ok 7, ⟨[("!r:x", 7)], 8⟩) :=
  ⟨(prepareRoom_characterization ⟨[], 1⟩ KindOutlier ("!r:x")).2.2 (by decide) rfl,
   (prepareRoom_characterization ⟨[], 1⟩ KindNew ("!r:x")).2.1 (by decide) (by decide),
   (prepareRoom_characterization ⟨[("!r:x", 7)], 8⟩ KindJoin ("!r:x")).1 (by decide)⟩

theorem selectSnapshotRows_sorted (table : List SnapshotRow) (stateNIDs : List Int) :
    List.Sorted rowLE (selectSnapshotRows table stateNIDs) :=
  List.sorted_insertionSort rowLE _

theorem mem_selectSnapshotRows (table : List SnapshotRow) (stateNIDs : List Int)
    (row : StateBlockNIDList) :
    row ∈ selectSnapshotRows table stateNIDs ↔
      ∃ r ∈ table, r.stateSnapshotNID ∈ stateNIDs ∧
        row = StateBlockNIDList.mk r.stateSnapshotNID r.stateBlockNIDs := by
  unfold selectSnapshotRows
  rw [(List.perm_insertionSort rowLE _).mem_iff]
  simp only [List.mem_map, List.mem_filter, decide_eq_true_eq]
  constructor
  · rintro ⟨r, ⟨hr, hmem⟩, rfl⟩
    exact ⟨r, hr, hmem, rfl⟩
  · rintro ⟨r, hr, hmem, rfl⟩
    exact ⟨r, ⟨hr, hmem⟩, rfl⟩

theorem selectSnapshotRows_keys_nodup (table : List SnapshotRow) (stateNIDs : List Int)
    (hpk : (table.map SnapshotRow.stateSnapshotNID).Nodup) :
    ((selectSnapshotRows table stateNIDs).map StateBlockNIDList.stateSnapshotNID).Nodup := by
  unfold selectSnapshotRows
  have hp := (List.perm_insertionSort rowLE
      ((table.filter fun r => r.stateSnapshotNID ∈ stateNIDs).map
        fun r => StateBlockNIDList.mk r.stateSnapshotNID r.stateBlockNIDs)).map
    StateBlockNIDList.stateSnapshotNID
  refine hp.nodup_iff.mpr ?_
  rw [List.map_map]
  have hcomp : (StateBlockNIDList.stateSnapshotNID ∘
      fun r => StateBlockNIDList.mk r.stateSnapshotNID r.stateBlockNIDs)
      = SnapshotRow.stateSnapshotNID := rfl
  rw [hcomp]
  exact ((List.filter_sublist table).map SnapshotRow.stateSnapshotNID).nodup hpk

/-- C9: over a table whose snapshot nids are unique (the primary key),
the bulk snapshot-block lookup, when it succeeds, returns as many rows as
requested nids, sorted ascending by snapshot nid, with one row from the
table for every requested nid; and it fails with the missing-snapshot
error whenever some requested nid is absent from the table. -/
theorem bulkSelectStateBlockNIDs_spec (table : List SnapshotRow) (stateNIDs : List Int)
    (hpk : (table.map SnapshotRow.stateSnapshotNID).Nodup) :
    (∀ rows, bulkSelectStateBlockNIDs table stateNIDs = .ok rows →
       rows.length = stateNIDs.length ∧
       List.Sorted rowLE rows ∧
       (∀ nid ∈ stateNIDs, ∃ row ∈ rows, row.stateSnapshotNID = nid) ∧
       (∀ row ∈ rows, ∃ r ∈ table, r.stateSnapshotNID = row.stateSnapshotNID ∧
          r.stateBlockNIDs = row.stateBlockNIDs)) ∧
    ((∃ nid ∈ stateNIDs, nid ∉ table.map SnapshotRow.stateSnapshotNID) →
       ∃ msg, bulkSelectStateBlockNIDs table stateNIDs = .error msg) := by
  have hnodup := selectSnapshotRows_keys_nodup table stateNIDs hpk
  have hkeysub : ∀ k ∈ (selectSnapshotRows table stateNIDs).map
      StateBlockNIDList.stateSnapshotNID, k ∈ stateNIDs := by
    intro k hk
    obtain ⟨row, hrow, rfl⟩ := List.mem_map.mp hk
    obtain ⟨r, _, hrmem, hroweq⟩ := (mem_selectSnapshotRows table stateNIDs row).mp hrow
    rw [hroweq]
    exact hrmem
  constructor
  · intro rows heq
    unfold bulkSelectStateBlockNIDs at heq
    split at heq
    case isTrue hlen =>
      cases heq
      refine ⟨hlen, selectSnapshotRows_sorted table stateNIDs, ?_, ?_⟩
      · intro nid hnid
        have hsp := List.subperm_of_subset hnodup hkeysub
        have hlenkeys : ((selectSnapshotRows table stateNIDs).map
            StateBlockNIDList.stateSnapshotNID).length = stateNIDs.length := by
          rw [List.length_map]
          exact hlen
        have hperm2 := hsp.perm_of_length_le (le_of_eq hlenkeys.symm)
        have hmemk : nid ∈ (selectSnapshotRows table stateNIDs).map
            StateBlockNIDList.stateSnapshotNID := hperm2.mem_iff.mpr hnid
        obtain ⟨row, hrow, hkey⟩ := List.mem_map.mp hmemk
        exact ⟨row, hrow, hkey⟩
      · intro row hrow
        obtain ⟨r, hr, _, hroweq⟩ := (mem_selectSnapshotRows table stateNIDs row).mp hrow
        exact ⟨r, hr, by rw [hroweq], by rw [hroweq]⟩
    case isFalse hlen =>
      exact absurd heq (by simp)
  · rintro ⟨missing, hmem, habs⟩
    have hkeysub2 : ∀ k ∈ (selectSnapshotRows table stateNIDs).map
        StateBlockNIDList.stateSnapshotNID, k ∈ stateNIDs.dedup.erase missing := by
      intro k hk
      obtain ⟨row, hrow, rfl⟩ := List.mem_map.mp hk
      obtain ⟨r, hr, hrmem, hroweq⟩ := (mem_selectSnapshotRows table stateNIDs row).mp hrow
      have hkeytab : row.stateSnapshotNID ∈ table.map SnapshotRow.stateSnapshotNID := by
        rw [hroweq]
        exact List.mem_map.mpr ⟨r, hr, rfl⟩
      have hnemiss : row.stateSnapshotNID ≠ missing := fun hc => habs (hc ▸ hkeytab)
      have hmem2 : row.stateSnapshotNID ∈ stateNIDs := by
        rw [hroweq]
        exact hrmem
      exact (List.mem_erase_of_ne hnemiss).mpr (List.mem_dedup.mpr hmem2)
    have hsp := List.subperm_of_subset hnodup hkeysub2
    have h1 : (selectSnapshotRows table stateNIDs).length ≤
        (stateNIDs.dedup.erase missing).length := by
      have hle := hsp.length_le
      rwa [List.length_map] at hle
    have h2 : (stateNIDs.dedup.erase missing).length = stateNIDs.dedup.length - 1 :=
      List.length_erase_of_mem (List.mem_dedup.mpr hmem)
    have h3 : stateNIDs.dedup.length ≤ stateNIDs.length :=
      (List.dedup_sublist stateNIDs).length_le
    have h4 : 0 < stateNIDs.dedup.length :=
      List.length_pos_of_mem (List.mem_dedup.mpr hmem)
    have hne : ¬((selectSnapshotRows table stateNIDs).length = stateNIDs.length) := by
      omega
    unfold bulkSelectStateBlockNIDs
    rw [if_neg hne]
    exact ⟨_, rfl⟩

/-- Witness for C9: requesting snapshots 2 and 1 from a two-row table
returns both rows sorted ascending, and requesting the absent snapshot 3
fails. -/
theorem bulkSelectStateBlockNIDs_spec_witness :
    bulkSelectStateBlockNIDs snapTable [2, 1] =
      .ok [⟨1, [100]⟩, ⟨2, [100, 101]⟩] ∧
    List.Sorted rowLE [⟨1, [100]⟩, ⟨2, [100, 101]⟩] ∧
    (∃ msg, bulkSelectStateBlockNIDs snapTable [3, 1] = .error msg) :=
  ⟨by rfl,
   ((bulkSelectStateBlockNIDs_spec snapTable [2, 1] (by decide)).1
      [⟨1, [100]⟩, ⟨2, [100, 101]⟩] (by rfl)).2.1,
   (bulkSelectStateBlockNIDs_spec snapTable [3, 1] (by decide)).2
     ⟨3, by decide, by decide⟩⟩

theorem mem_uniqueAux (a lastValue : String) (l : List String) :
    a ∈ uniqueAux lastValue l ↔ a = lastValue ∨ a ∈ l := by
  induction l generalizing lastValue with
  | nil => simp [uniqueAux]
  | cons v rest ih =>
    unfold uniqueAux
    by_cases hv : v = lastValue
    · rw [if_pos hv, ih]
      subst hv
      simp only [List.mem_cons]
      tauto
    · rw [if_neg hv]
      simp only [List.mem_cons, ih]

theorem sorted_nodup_uniqueAux (lastValue : String) (l : List String)
    (h : List.Sorted strLE (lastValue :: l)) :
    List.Sorted strLE (uniqueAux lastValue l) ∧ (uniqueAux lastValue l).Nodup := by
  induction l generalizing lastValue with
  | nil => simp [uniqueAux]
  | cons v rest ih =>
    rw [List.sorted_cons] at h
    obtain ⟨h1, h2⟩ := h
    unfold uniqueAux
    by_cases hv : v = lastValue
    · rw [if_pos hv]
      apply ih
      rw [List.sorted_cons]
      rw [List.sorted_cons] at h2
      exact ⟨fun b hb => h1 b (List.mem_cons_of_mem v hb), h2.2⟩
    · rw [if_neg hv]
      have hrec := ih v h2
      constructor
      · rw [List.sorted_cons]
        refine ⟨fun b hb => ?_, hrec.1⟩
        rcases (mem_uniqueAux b v rest).mp hb with heq | hb
        · rw [heq]
          exact h1 v (List.mem_cons_self v rest)
        · exact h1 b (List.mem_cons_of_mem v hb)
      · rw [List.nodup_cons]
        refine ⟨fun hmem => ?_, hrec.2⟩
        rcases (mem_uniqueAux lastValue v rest).mp hmem with heq | hmem2
        · exact hv heq.symm
        · rw [List.sorted_cons] at h2
          have hvl := h2.1 lastValue hmem2
          have hlv := h1 v (List.mem_cons_self v rest)
          exact hv (IsAntisymm.antisymm v lastValue hvl hlv)

theorem canonicalIDs_facts (l : List String) :
    List.Sorted strLE (unique (List.insertionSort strLE l)) ∧
    (unique (List.insertionSort strLE l)).Nodup ∧
    ∀ a, a ∈ unique (List.insertionSort strLE l) ↔ a ∈ l := by
  have hp : List.Perm (List.insertionSort strLE l) l := List.perm_insertionSort strLE l
  have hs : List.Sorted strLE (List.insertionSort strLE l) :=
    List.sorted_insertionSort strLE l
  cases hsort : List.insertionSort strLE l with
  | nil =>
    rw [hsort] at hp
    have hl : l = [] := (hp.symm).eq_nil
    subst hl
    simp [unique]
  | cons x xs =>
    rw [hsort] at hp hs
    have hfacts := sorted_nodup_uniqueAux x xs hs
    simp only [unique]
    refine ⟨hfacts.1, hfacts.2, fun a => ?_⟩
    rw [mem_uniqueAux, ← hp.mem_iff]
    simp [List.mem_cons]

theorem canonicalIDs_eq (l₁ l₂ : List String) (h : ∀ a, a ∈ l₁ ↔ a ∈ l₂) :
    unique (List.insertionSort strLE l₁) = unique (List.insertionSort strLE l₂) := by
  obtain ⟨hs₁, hn₁, hm₁⟩ := canonicalIDs_facts l₁
  obtain ⟨hs₂, hn₂, hm₂⟩ := canonicalIDs_facts l₂
  have hperm : List.Perm (unique (List.insertionSort strLE l₁))
      (unique (List.insertionSort strLE l₂)) :=
    (List.perm_ext_iff_of_nodup hn₁ hn₂).mpr fun a =>
      (hm₁ a).trans ((h a).trans (hm₂ a).symm)
  exact List.eq_of_perm_of_sorted hperm hs₁ hs₂

theorem length_filterMap_of_all_some {α β : Type} (f : α → Option β) (l : List α)
    (h : ∀ a ∈ l, (f a).isSome = true) : (l.filterMap f).length = l.length := by
  induction l with
  | nil => rfl
  | cons a rest ih =>
    obtain ⟨b, hb⟩ := Option.isSome_iff_exists.mp (h a (List.mem_cons_self a rest))
    have hrest : ∀ x ∈ rest, (f x).isSome = true :=
      fun x hx => h x (List.mem_cons_of_mem a hx)
    simp [List.filterMap_cons, hb, ih hrest]

/-- C10: state preparation from `prev_events` sorts and deduplicates the
prev-event ids, so its result — success with the looked-up states or a
missing-state failure — depends only on the set of distinct prev-event
ids, not on their order or multiplicity; and it succeeds whenever every
listed prev event (duplicates included) has persisted state. -/
theorem prepareState_prevEvents_set_determined (db : List (String × StateAtEvent))
    (l₁ l₂ : List String) (h : ∀ a, a ∈ l₁ ↔ a ∈ l₂) :
    prepareStateFromPrevEvents db l₁ = prepareStateFromPrevEvents db l₂ ∧
    ((∀ id ∈ l₁, (lookupState db id).isSome = true) →
      ∃ states, prepareStateFromPrevEvents db l₁ = .ok states) := by
  constructor
  · unfold prepareStateFromPrevEvents
    rw [canonicalIDs_eq l₁ l₂ h]
  · intro hall
    obtain ⟨-, -, hm⟩ := canonicalIDs_facts l₁
    have hlen : (stateAtEventsDB db (unique (List.insertionSort strLE l₁))).length
        = (unique (List.insertionSort strLE l₁)).length := by
      unfold stateAtEventsDB
      exact length_filterMap_of_all_some (lookupState db) _
        fun id hid => hall id ((hm id).mp hid)
    unfold prepareStateFromPrevEvents
    rw [if_pos hlen]
    exact ⟨_, rfl⟩

/-- Witness for C10: an event listing the same prev event twice prepares
the same state as one listing it once, and succeeds because that prev
event has persisted state. -/
theorem prepareState_prevEvents_set_determined_witness :
    prepareStateFromPrevEvents stateDBWit ["$e1:x", "$e1:x"] =
      prepareStateFromPrevEvents stateDBWit ["$e1:x"] ∧
    (∃ states, prepareStateFromPrevEvents stateDBWit ["$e1:x", "$e1:x"] = .ok states) :=
  ⟨(prepareState_prevEvents_set_determined stateDBWit ["$e1:x", "$e1:x"] ["$e1:x"]
      fun a => by simp).1,
   (prepareState_prevEvents_set_determined stateDBWit ["$e1:x", "$e1:x"] ["$e1:x"]
      fun a => by simp).2 (by decide)⟩

end Dendrite
